import Mathlib

/-!
Verification development for the `cmdn` command-line notification tool
(`cmdn.js`).  The tool runs one shell command, streams and buffers its
output, then plays a notification sound and optionally runs a configured
post-command, and finally exits with the main command's exit code.

The JavaScript source is shallowly embedded: every function below is a
direct translation of the correspondingly named function of `cmdn.js`.
Event-driven parts (child process stream chunks, close/error events) are
embedded by making the sequence of events an explicit argument, and the
file system / platform environment is a record of explicit parameters.
-/

namespace Cmdn

/-! ### JavaScript string replacement

`String.prototype.replace` with a global literal pattern scans the string
left to right; at each position it either matches the whole pattern,
emits the substitution computed from the replacement string and resumes
after the matched text (never rescanning the emitted substitution), or
emits one character and advances by one.  The substitution is
ECMAScript's GetSubstitution: the replacement string is not inserted
verbatim but with its dollar escape sequences interpreted.  The embedding
uses fuel (initially the string length, an upper bound on the number of
scan steps) so that the scanner is structurally recursive and
kernel-evaluable. -/

/-- ECMAScript GetSubstitution for a string replacement and a regular
    expression with no capture groups (the patterns at lines 263–265 of
    `cmdn.js` have none): scanning the replacement text, `$$` emits a
    dollar, `$&` emits the matched text, a dollar followed by the
    backquote character (U+0060) emits the part of the subject before the
    match, a dollar followed by the apostrophe character (U+0027) emits
    the part after the match, and every other dollar sequence is literal
    (with no capture groups `$1`–`$99` and `$<` are literal, as is a
    trailing `$`).  `str` is the whole subject string, `position` the
    match position, `matched` the matched text.  In the literal-dollar
    case the scan resumes after the following character, which is sound
    because that character is not a dollar and so cannot open an escape. -/
def getSubstitution (str : List Char) (position : Nat) (matched : List Char) :
    List Char → List Char
  | [] => []
  | c :: rest =>
    if c = '$' then
      match rest with
      | [] => [c]
      | d :: rest2 =>
        if d = '$' then
          '$' :: getSubstitution str position matched rest2
        else if d = '&' then
          matched ++ getSubstitution str position matched rest2
        else if d = Char.ofNat 96 then
          str.take position ++ getSubstitution str position matched rest2
        else if d = Char.ofNat 39 then
          str.drop (position + matched.length)
            ++ getSubstitution str position matched rest2
        else
          c :: d :: getSubstitution str position matched rest2
    else
      c :: getSubstitution str position matched rest

def replaceAllGo (pat rep str : List Char) : Nat → Nat → List Char → List Char
  | _, _, [] => []
  | 0, _, s => s
  | fuel + 1, position, c :: rest =>
    if pat ≠ [] ∧ pat.isPrefixOf (c :: rest) then
      getSubstitution str position pat rep
        ++ replaceAllGo pat rep str fuel (position + pat.length)
            ((c :: rest).drop pat.length)
    else
      c :: replaceAllGo pat rep str fuel (position + 1) rest

/-- `replaceAll s pat rep` is `s.replace(/pat/g, rep)` for a literal
    (regex-escaped) pattern `pat`, as used at lines 263–265 of `cmdn.js`:
    for a literal pattern the matched text of each match is `pat` itself,
    and the subject handed to GetSubstitution is the whole of `s`. -/
def replaceAll (s pat rep : List Char) : List Char :=
  replaceAllGo pat rep s s.length 0 s

/-- Does the list contain the dollar character?  (A replacement without a
    dollar is exempt from every GetSubstitution escape.) -/
def hasDollar : List Char → Bool
  | [] => false
  | c :: rest => decide (c = '$') || hasDollar rest

/-- String version of `replaceAll`. -/
def replaceAllStr (s pat rep : String) : String :=
  ⟨replaceAll s.data pat.data rep.data⟩

/-- `occursIn s pat = true` iff `pat` occurs as a contiguous substring of
    `s` (the scan performed by a global regex search for the literal
    `pat`). -/
def occursIn (s pat : List Char) : Bool :=
  match s with
  | [] => pat.isEmpty
  | _ :: rest => pat.isPrefixOf s || occursIn rest pat

/-- String version of `occursIn`: does the literal token `pat` occur in `s`? -/
def containsTok (s pat : String) : Bool :=
  occursIn s.data pat.data

/-- String version of `hasDollar`. -/
def containsDollar (s : String) : Bool :=
  hasDollar s.data

/-! ### Command execution (`executeCommand`, lines 77–122)

`executeCommand` spawns the command through the shell with piped
stdout/stderr.  Each `data` event on a stream is immediately forwarded to
the parent's corresponding stream and appended to that stream's buffer.
The promise always resolves (never rejects): the `close` handler builds
the result from the buffers and the exit code, and the `error` handler
(launch failure) builds a failure result from the error message.

The stream traffic is embedded as the explicit list of `data` events in
arrival order, and the terminal event (`close` with an `Option Int` code,
which is `none` when the child was terminated by a signal, or `error`
with a message) as an explicit argument. -/

structure CommandResult where
  command : String
  output : String
  exitCode : Int
  success : Bool
deriving DecidableEq, Repr

inductive StreamTag where
  | out
  | err
deriving DecidableEq, Repr

inductive ChildEvent where
  | close (code : Option Int)
  | error (message : String)
deriving DecidableEq, Repr

/-- JavaScript `code || 0`: the falsy exit codes (`null`, `0`) become `0`. -/
def jsOrZero : Option Int → Int
  | none => 0
  | some n => if n = 0 then 0 else n

/-- The two stream buffers (`stdoutData`, `stderrData`) accumulated by the
    `data` handlers: each event appends its chunk to its stream's buffer. -/
def accumulate (events : List (StreamTag × String)) : String × String :=
  events.foldl
    (fun acc ev =>
      match ev.1 with
      | StreamTag.out => (acc.1 ++ ev.2, acc.2)
      | StreamTag.err => (acc.1, acc.2 ++ ev.2))
    ("", "")

/-- The text forwarded live to the parent's stdout: each stdout chunk is
    written immediately, so the live stream is the in-order concatenation
    of the stdout chunks. -/
def liveStdout : List (StreamTag × String) → String
  | [] => ""
  | (StreamTag.out, t) :: rest => t ++ liveStdout rest
  | (StreamTag.err, _) :: rest => liveStdout rest

/-- The text forwarded live to the parent's stderr. -/
def liveStderr : List (StreamTag × String) → String
  | [] => ""
  | (StreamTag.out, _) :: rest => liveStderr rest
  | (StreamTag.err, t) :: rest => t ++ liveStderr rest

/-- `executeCommand` (lines 77–122): the resolved `CommandResult` given the
    stream events and the terminal child event.  Totality of this function
    is the embedding of "the promise always resolves, never rejects". -/
def executeCommand (command : String) (events : List (StreamTag × String))
    (ev : ChildEvent) : CommandResult :=
  let acc := accumulate events
  match ev with
  | ChildEvent.close code =>
      { command := command
        output := (acc.1 ++ acc.2).trim
        exitCode := jsOrZero code
        success := decide (code = some 0) }
  | ChildEvent.error message =>
      { command := command
        output := message
        exitCode := 1
        success := false }

/-! ### Configuration (`loadConfig`, lines 21–37)

The config file, when present and parseable, is a JSON object whose fields
are spread over the defaults (`{ ...defaultConfig, ...parsed }`): a field
present in the file overrides the default, a missing field keeps it.  A
missing file or a load/parse error yields the defaults.  The file content
at a given load is embedded as `Option ConfigFileContent` (`none` for "no
file or unreadable/unparseable"), with each field optional. -/

structure Config where
  soundEnabled : Bool
  runCommand : Bool
  command : String
deriving DecidableEq, Repr

structure ConfigFileContent where
  soundEnabled : Option Bool
  runCommand : Option Bool
  command : Option String
deriving DecidableEq, Repr

def defaultConfig : Config :=
  { soundEnabled := true, runCommand := false, command := "" }

/-- `loadConfig` (lines 28–37): merge the file's fields over the defaults;
    defaults when the file is absent or unreadable. -/
def loadConfig : Option ConfigFileContent → Config
  | none => defaultConfig
  | some f =>
      { soundEnabled := f.soundEnabled.getD defaultConfig.soundEnabled
        runCommand := f.runCommand.getD defaultConfig.runCommand
        command := f.command.getD defaultConfig.command }

/-! ### Linux sound player chain (`playLinuxSound`, lines 179–219)

Each spawned player produces exactly one terminal event: a `close` with an
exit code (`none` for a signal) or a launch `error`.  The `close` handler
resolves on code 0 and otherwise advances to the next player; the `error`
handler advances to the next player; running past the end of the list
rejects.  The outcome each player would produce is embedded as a function
from player name to `SpawnOutcome`. -/

inductive SpawnOutcome where
  | closed (code : Option Int)
  | launchError
deriving DecidableEq, Repr

def linuxPlayers : List String :=
  ["paplay", "aplay", "mpg123", "mpv", "vlc", "xdg-open"]

/-- A player attempt succeeds exactly when its process closes with code 0. -/
def isPlayerSuccess : SpawnOutcome → Bool
  | SpawnOutcome.closed code => decide (code = some 0)
  | SpawnOutcome.launchError => false

/-- The `tryNextPlayer` loop of `playLinuxSound`: returns the list of
    players attempted, in order, and whether the promise resolved. -/
def tryPlayers (env : String → SpawnOutcome) : List String → List String × Bool
  | [] => ([], false)
  | p :: rest =>
    match env p with
    | SpawnOutcome.closed code =>
        if code = some 0 then ([p], true)
        else
          let r := tryPlayers env rest
          (p :: r.1, r.2)
    | SpawnOutcome.launchError =>
        let r := tryPlayers env rest
        (p :: r.1, r.2)

/-! ### The world the process runs in

All external inputs of one `cmdn` invocation, embedded explicitly: the
config file content at each of the two `loadConfig()` call sites (the
sound stage, line 223, and the post-command stage, line 255 — the file is
read twice and may have changed in between), the result of
`findSoundFile` (`none` when it throws), the platform, the per-player
outcomes on Linux, abstract playback outcomes on Windows/macOS, and the
stream events and terminal event of the main command and of the
post-command. -/

inductive Platform where
  | win32
  | darwin
  | linux
  | other
deriving DecidableEq, Repr

/-- A child process spawned by the run, as observable from outside. -/
inductive Spawned where
  | mainCmd (command : String)
  | soundPlayer (player : String)
  | postCmd (command : String)
deriving DecidableEq, Repr

structure World where
  fileAtSound : Option ConfigFileContent
  fileAtPost : Option ConfigFileContent
  soundFile : Option String
  platform : Platform
  winAttempts : List String
  winPlay : Bool
  macAttempts : List String
  macPlay : Bool
  playerEnv : String → SpawnOutcome
  mainStreams : List (StreamTag × String)
  mainEvent : ChildEvent
  postStreams : List (StreamTag × String)
  postEvent : ChildEvent

/-- The configuration observed by the notification stage: the
    `loadConfig()` call at line 223 of `playNotificationSound`. -/
def soundStageConfig (w : World) : Config :=
  loadConfig w.fileAtSound

/-- The configuration observed by the post-command stage: the
    `loadConfig()` call at line 255 of `runConfiguredCommand`. -/
def postStageConfig (w : World) : Config :=
  loadConfig w.fileAtPost

/-- Platform dispatch of `playNotificationSound` (lines 233–247):
    the players spawned and whether playback succeeded.  The
    Windows and macOS fallback chains are abstracted as arbitrary attempt
    lists and outcomes taken from the world (no claim depends on their
    internal order); the Linux chain is `playLinuxSound`; an unsupported
    platform throws, which the caller catches (pure failure here). -/
def platformPlay (w : World) : List Spawned × Bool :=
  match w.platform with
  | Platform.win32 => (w.winAttempts.map Spawned.soundPlayer, w.winPlay)
  | Platform.darwin => (w.macAttempts.map Spawned.soundPlayer, w.macPlay)
  | Platform.linux =>
      let r := tryPlayers w.playerEnv linuxPlayers
      (r.1.map Spawned.soundPlayer, r.2)
  | Platform.other => ([], false)

/-- `playNotificationSound` (lines 222–251) given the configuration it
    loaded: skip everything when sound is disabled; a missing sound file
    (`findSoundFile` throwing) is caught and logged; every playback
    failure is caught and logged.  The function is total: no error
    escapes to the caller. -/
def playNotificationSoundWith (config : Config) (w : World) : List Spawned :=
  if !config.soundEnabled then []
  else
    match w.soundFile with
    | none => []
    | some _ => (platformPlay w).1

/-- `playNotificationSound` (lines 222–251): loads the configuration
    itself (line 223) and proceeds. -/
def playNotificationSound (w : World) : List Spawned :=
  playNotificationSoundWith (soundStageConfig w) w

/-! ### Template expansion (`runConfiguredCommand`, lines 263–265) -/

/-- The template expansion of the configured post-command:
    `config.command.replace(/[[command]]/g, c).replace(/[[output]]/g, o)`
    — a global replacement of `[[command]]` followed by a global
    replacement of `[[output]]` on the result of the first pass. -/
def expandTemplate (template command output : String) : String :=
  replaceAllStr (replaceAllStr template "[[command]]" command) "[[output]]" output

/-- The expansion the specification describes: one simultaneous left-to-
    right pass replacing each `[[command]]` token with the command text
    and each `[[output]]` token with the output text, never rescanning
    substituted text (so nothing substituted is ever re-expanded).  Kept
    for comparison with `expandTemplate`. -/
def specExpandGo (command output : List Char) : Nat → List Char → List Char
  | _, [] => []
  | 0, s => s
  | fuel + 1, c :: rest =>
    if ("[[command]]".data).isPrefixOf (c :: rest) then
      command ++ specExpandGo command output fuel ((c :: rest).drop 11)
    else if ("[[output]]".data).isPrefixOf (c :: rest) then
      output ++ specExpandGo command output fuel ((c :: rest).drop 10)
    else
      c :: specExpandGo command output fuel rest

/-- String version of `specExpandGo`, at fuel = template length. -/
def specExpandTemplate (template command output : String) : String :=
  ⟨specExpandGo command.data output.data template.data.length template.data⟩

/-- `runConfiguredCommand` (lines 254–277) given the configuration it
    loaded: nothing runs when `runCommand` is off or the configured
    command is blank; otherwise the template is expanded against the main
    command's record and executed; a failing post-command is only
    logged.  Returns the spawned post-command (if any) and its result. -/
def runConfiguredCommandWith (config : Config) (w : World)
    (commandData : CommandResult) : List Spawned × Option CommandResult :=
  if !config.runCommand || config.command.trim = "" then ([], none)
  else
    let commandToRun := expandTemplate config.command commandData.command commandData.output
    let result := executeCommand commandToRun w.postStreams w.postEvent
    ([Spawned.postCmd commandToRun], some result)

/-- `runConfiguredCommand` (lines 254–277): loads the configuration
    itself (line 255) and proceeds. -/
def runConfiguredCommand (w : World) (commandData : CommandResult) :
    List Spawned × Option CommandResult :=
  runConfiguredCommandWith (postStageConfig w) w commandData

/-! ### `main` (lines 381–435)

Argument dispatch scans the whole argument list with `includes`:
configuration mode first, then help, then the zero-argument usage error
(exit 1), and otherwise the arguments are joined with single spaces and
run.  In the run branch the main command is executed, the notification
sound is played, the configured post-command is run, and the process
exits with the main command's exit code. -/

inductive MainBranch where
  | configure
  | help
  | usage
  | run
deriving DecidableEq, Repr

structure MainOutcome where
  branch : MainBranch
  spawned : List Spawned
  exitCode : Option Int
deriving DecidableEq, Repr

/-- `main` (lines 381–435).  `exitCode = none` means `main` returned
    without calling `process.exit` (help and configuration modes);
    `some c` means the process terminated with code `c`. -/
def main (args : List String) (w : World) : MainOutcome :=
  if args.contains "--configure" || args.contains "-c" then
    { branch := MainBranch.configure, spawned := [], exitCode := none }
  else if args.contains "--help" || args.contains "-h" then
    { branch := MainBranch.help, spawned := [], exitCode := none }
  else if args.length = 0 then
    { branch := MainBranch.usage, spawned := [], exitCode := some 1 }
  else
    let commandToRun := String.intercalate " " args
    let result := executeCommand commandToRun w.mainStreams w.mainEvent
    let soundSpawns := playNotificationSound w
    let postRun := runConfiguredCommand w result
    { branch := MainBranch.run
      spawned := Spawned.mainCmd commandToRun :: (soundSpawns ++ postRun.1)
      exitCode := some result.exitCode }

/-- The pipeline as the specification describes it: one configuration
    value, loaded once at process start, passed to every stage.  Kept for
    comparison with `main`, which lets each stage load the file itself. -/
def mainConfigLoadedOnce (config : Config) (args : List String) (w : World) :
    MainOutcome :=
  if args.contains "--configure" || args.contains "-c" then
    { branch := MainBranch.configure, spawned := [], exitCode := none }
  else if args.contains "--help" || args.contains "-h" then
    { branch := MainBranch.help, spawned := [], exitCode := none }
  else if args.length = 0 then
    { branch := MainBranch.usage, spawned := [], exitCode := some 1 }
  else
    let commandToRun := String.intercalate " " args
    let result := executeCommand commandToRun w.mainStreams w.mainEvent
    let soundSpawns := playNotificationSoundWith config w
    let postRun := runConfiguredCommandWith config w result
    { branch := MainBranch.run
      spawned := Spawned.mainCmd commandToRun :: (soundSpawns ++ postRun.1)
      exitCode := some result.exitCode }

/-! ## Helper lemmas -/

/-- The buffers accumulated by the `data` handlers are exactly the
    concatenations, in arrival order, of the chunks forwarded live to the
    parent's two streams (generalised over the starting buffer contents). -/
theorem accumulate_foldl_eq_live (events : List (StreamTag × String)) :
    ∀ a b : String,
      events.foldl
        (fun acc ev =>
          match ev.1 with
          | StreamTag.out => (acc.1 ++ ev.2, acc.2)
          | StreamTag.err => (acc.1, acc.2 ++ ev.2))
        (a, b) = (a ++ liveStdout events, b ++ liveStderr events) := by
  induction events with
  | nil => intro a b; simp [liveStdout, liveStderr]
  | cons ev rest ih =>
    intro a b
    obtain ⟨tag, t⟩ := ev
    cases tag with
    | out => simp [liveStdout, liveStderr, ih, String.append_assoc]
    | err => simp [liveStdout, liveStderr, ih, String.append_assoc]

/-- The two stream buffers equal the live-streamed text per stream. -/
theorem accumulate_eq_live (events : List (StreamTag × String)) :
    accumulate events = (liveStdout events, liveStderr events) := by
  have h := accumulate_foldl_eq_live events "" ""
  simpa [accumulate] using h

/-- A replacement text without a dollar character is exempt from every
    GetSubstitution escape: it is inserted verbatim. -/
theorem getSubstitution_of_no_dollar (str : List Char) (position : Nat)
    (matched : List Char) :
    ∀ rep, hasDollar rep = false →
      getSubstitution str position matched rep = rep := by
  intro rep
  induction rep with
  | nil => intro _; rfl
  | cons c rest ih =>
    intro h
    have h' : ¬ c = '$' ∧ hasDollar rest = false := by
      simpa [hasDollar, Bool.or_eq_false_iff] using h
    rw [getSubstitution.eq_def]
    simp [h'.1, ih h'.2]

/-- A scan that never finds the pattern replaces nothing, at any fuel and
    any position. -/
theorem replaceAllGo_of_not_occurs (pat rep str : List Char) :
    ∀ fuel position s, occursIn s pat = false →
      replaceAllGo pat rep str fuel position s = s := by
  intro fuel
  induction fuel with
  | zero => intro position s _; cases s <;> rfl
  | succ f ih =>
    intro position s h
    cases s with
    | nil => rfl
    | cons c rest =>
      have h' : pat.isPrefixOf (c :: rest) = false ∧ occursIn rest pat = false := by
        simpa [occursIn, Bool.or_eq_false_iff] using h
      simp [replaceAllGo, h'.1, ih (position + 1) rest h'.2]

/-- Replacing a pattern that does not occur in the string is the identity. -/
theorem replaceAll_of_not_occurs (s pat rep : List Char)
    (h : occursIn s pat = false) : replaceAll s pat rep = s :=
  replaceAllGo_of_not_occurs pat rep s s.length 0 s h

/-- String version: replacing an absent token changes nothing. -/
theorem replaceAllStr_of_not_contains (s pat rep : String)
    (h : containsTok s pat = false) : replaceAllStr s pat rep = s := by
  unfold replaceAllStr
  rw [replaceAll_of_not_occurs s.data pat.data rep.data h]

/-- The `tryNextPlayer` loop attempts exactly the failing players up to and
    including the first successful one, and resolves exactly when some
    player in the list succeeds. -/
theorem tryPlayers_characterisation (env : String → SpawnOutcome) (ps : List String) :
    (tryPlayers env ps).1
        = ps.takeWhile (fun p => !isPlayerSuccess (env p))
          ++ (ps.dropWhile (fun p => !isPlayerSuccess (env p))).take 1
    ∧ ((tryPlayers env ps).2 = true ↔ ∃ p ∈ ps, isPlayerSuccess (env p) = true) := by
  induction ps with
  | nil => simp [tryPlayers]
  | cons p rest ih =>
    by_cases hp : isPlayerSuccess (env p) = true
    · have h1 : tryPlayers env (p :: rest) = ([p], true) := by
        cases hs : env p with
        | closed code =>
          have hc : code = some 0 := by
            simpa [isPlayerSuccess, hs] using hp
          simp [tryPlayers, hs, hc]
        | launchError => simp [isPlayerSuccess, hs] at hp
      refine ⟨?_, ?_⟩
      · simp [h1, List.takeWhile_cons, List.dropWhile_cons, hp]
      · simp [h1, hp]
    · have h1 : tryPlayers env (p :: rest)
          = (p :: (tryPlayers env rest).1, (tryPlayers env rest).2) := by
        cases hs : env p with
        | closed code =>
          have hc : ¬ code = some 0 := by
            simp [isPlayerSuccess, hs] at hp
            exact hp
          simp [tryPlayers, hs, hc]
        | launchError => simp [tryPlayers, hs]
      refine ⟨?_, ?_⟩
      · simp [h1, List.takeWhile_cons, List.dropWhile_cons, hp, ih.1]
      · simp [h1, ih.2]
        intro hmem
        exact absurd hmem hp

/-! ## Concrete environments used by witnesses -/

/-- A concrete world: no config file, no sound asset, Linux with no
    working audio player, main and post commands closing cleanly. -/
def witnessWorld : World :=
  { fileAtSound := none
    fileAtPost := none
    soundFile := none
    platform := Platform.linux
    winAttempts := []
    winPlay := false
    macAttempts := []
    macPlay := false
    playerEnv := fun _ => SpawnOutcome.launchError
    mainStreams := []
    mainEvent := ChildEvent.close (some 0)
    postStreams := []
    postEvent := ChildEvent.close (some 0) }

/-- A config file enabling a post-command and disabling sound. -/
def sharedFileContent : ConfigFileContent :=
  { soundEnabled := some false
    runCommand := some true
    command := some "echo done [[command]]" }

/-- A world whose config file has the same content at both loads. -/
def eqFilesWorld : World :=
  { witnessWorld with
    fileAtSound := some sharedFileContent
    fileAtPost := some sharedFileContent }

/-- A config file that only disables sound. -/
def soundOffFileContent : ConfigFileContent :=
  { soundEnabled := some false
    runCommand := none
    command := none }

/-- A world in which the config file changes between the two loads: it
    disables sound when the notification stage reads it, and is gone when
    the post-command stage reads it. -/
def diffFilesWorld : World :=
  { witnessWorld with fileAtSound := some soundOffFileContent }

/-! ## Claims -/

/-- **C1, counterexample.**  The claim says the success flag is true
    exactly when the stored `exitCode` equals 0.  When the child exits via
    a signal the `close` code is `null`: `exitCode || 0` stores `0`, but
    `exitCode === 0` is false, so the stored code is 0 while `success` is
    false. -/
theorem executeCommand_signal_close_cex :
    (executeCommand "sleep 100" [] (ChildEvent.close none)).exitCode = 0
    ∧ (executeCommand "sleep 100" [] (ChildEvent.close none)).success = false := by
  decide

/-- **C1, amended.**  For every `close` event, the stored `exitCode` is the
    child's exit code, or 0 when the child exited via a signal/unknown
    code (`null`), and `success` is true exactly when the child's raw
    close code is 0 — which coincides with `stored exitCode == 0`
    whenever the child exited with a real code, but not in the signal
    case. -/
theorem executeCommand_exitCode_success (cmd : String)
    (events : List (StreamTag × String)) (code : Option Int) :
    (executeCommand cmd events (ChildEvent.close code)).exitCode = code.getD 0
    ∧ ((executeCommand cmd events (ChildEvent.close code)).success = true
        ↔ code = some 0) := by
  constructor
  · cases code with
    | none => rfl
    | some n =>
      by_cases h : n = 0
      · simp [executeCommand, jsOrZero, h]
      · simp [executeCommand, jsOrZero, h]
  · simp [executeCommand]

/-- **C3.**  `executeCommand` never throws or rejects: the embedding is a
    total function into `CommandResult` (both child events resolve the
    promise), and on a launch failure the result carries the failure
    message as `output`, `exitCode = 1` and `success = false`. -/
theorem executeCommand_error_result (cmd : String)
    (events : List (StreamTag × String)) (msg : String) :
    executeCommand cmd events (ChildEvent.error msg)
      = { command := cmd, output := msg, exitCode := 1, success := false } := rfl

/-- **C6.**  On normal termination the result's `output` is the trim of
    the stdout buffer concatenated with the stderr buffer — stdout first,
    not interleaved by arrival time — and the two buffers are exactly the
    in-order concatenations of the chunks streamed live to the parent's
    stdout and stderr (no loss, no duplication). -/
theorem executeCommand_output_spec (cmd : String)
    (events : List (StreamTag × String)) (code : Option Int) :
    (executeCommand cmd events (ChildEvent.close code)).output
        = (liveStdout events ++ liveStderr events).trim
    ∧ accumulate events = (liveStdout events, liveStderr events) := by
  have h := accumulate_eq_live events
  constructor
  · show ((accumulate events).1 ++ (accumulate events).2).trim = _
    rw [h]
  · exact h

/-- **C5.**  On Linux the candidate players are exactly
    `paplay, aplay, mpg123, mpv, vlc, xdg-open`, tried strictly in that
    order: the attempted players are the failing prefix (nonzero exit or
    launch error) followed by the first succeeding player if any — so the
    chain stops at the first success and never attempts later candidates —
    and the chain fails exactly when every player in the list fails. -/
theorem playLinuxSound_order (env : String → SpawnOutcome) :
    linuxPlayers = ["paplay", "aplay", "mpg123", "mpv", "vlc", "xdg-open"]
    ∧ (tryPlayers env linuxPlayers).1
        = linuxPlayers.takeWhile (fun p => !isPlayerSuccess (env p))
          ++ (linuxPlayers.dropWhile (fun p => !isPlayerSuccess (env p))).take 1
    ∧ ((tryPlayers env linuxPlayers).2 = false
        ↔ ∀ p ∈ linuxPlayers, isPlayerSuccess (env p) = false) := by
  refine ⟨rfl, (tryPlayers_characterisation env linuxPlayers).1, ?_⟩
  have h := (tryPlayers_characterisation env linuxPlayers).2
  constructor
  · intro hf p hp
    rcases Bool.eq_false_or_eq_true (isPlayerSuccess (env p)) with hb | hb
    · exact absurd (h.mpr ⟨p, hp, hb⟩) (by simp [hf])
    · exact hb
  · intro hall
    rcases Bool.eq_false_or_eq_true (tryPlayers env linuxPlayers).2 with hb | hb
    · obtain ⟨p, hp, hs⟩ := h.mp hb
      exact absurd hs (by simp [hall p hp])
    · exact hb

/-- **C2, counterexample.**  The claim fails on two counts.  First, it
    says a placeholder token contained in a substituted value is never
    re-expanded; but the code runs the `[[command]]` pass first and the
    `[[output]]` pass on its result, so an `[[output]]` token contained
    in the substituted command text IS expanded by the second pass: with
    template `[[command]]`, command text `[[output]]` and output `X`, the
    code yields `X`, while the single-pass expansion the claim describes
    yields `[[output]]`.  Second, it says the substitution is literal;
    but `String.prototype.replace` interprets dollar escapes in a string
    replacement, so output text `$&` is replaced by the matched token
    itself rather than inserted verbatim. -/
theorem expandTemplate_substitution_cex :
    expandTemplate "[[command]]" "[[output]]" "X" = "X"
    ∧ specExpandTemplate "[[command]]" "[[output]]" "X" = "[[output]]"
    ∧ expandTemplate "[[output]]" "ls" "$&" = "[[output]]" := by
  decide

/-- **C2, amended.**  Template expansion is two sequential global passes:
    every `[[command]]` is replaced first, then every `[[output]]`
    occurrence of the resulting string is replaced.  Each insertion goes
    through JavaScript's replacement-string rules, so a substituted value
    containing dollar escapes (`$$`, `$&`, dollar-backquote,
    dollar-apostrophe) is not inserted verbatim; a dollar-free value is.
    For dollar-free values: the inserted output text is never rescanned
    (whatever placeholder tokens it contains), and `[[command]]` tokens
    in substituted values are never re-expanded, but an `[[output]]`
    token contained in the substituted command text is expanded by the
    second pass. -/
theorem expandTemplate_two_pass (c o : String)
    (hc : containsDollar c = false) (ho : containsDollar o = false) :
    expandTemplate "[[output]]" c o = o
    ∧ expandTemplate "[[command]]" c o = replaceAllStr c "[[output]]" o := by
  constructor
  · show replaceAllStr (replaceAllStr "[[output]]" "[[command]]" c) "[[output]]" o = o
    have h1 : replaceAllStr "[[output]]" "[[command]]" c = "[[output]]" := rfl
    rw [h1]
    show String.mk
        (getSubstitution "[[output]]".data 0 "[[output]]".data o.data ++ []) = o
    rw [getSubstitution_of_no_dollar "[[output]]".data 0 "[[output]]".data o.data ho,
        List.append_nil]
  · show replaceAllStr (replaceAllStr "[[command]]" "[[command]]" c) "[[output]]" o
        = replaceAllStr c "[[output]]" o
    have h1 : replaceAllStr "[[command]]" "[[command]]" c
        = String.mk
            (getSubstitution "[[command]]".data 0 "[[command]]".data c.data ++ []) := rfl
    have h2 : String.mk
        (getSubstitution "[[command]]".data 0 "[[command]]".data c.data ++ []) = c := by
      rw [getSubstitution_of_no_dollar "[[command]]".data 0 "[[command]]".data c.data hc,
          List.append_nil]
    rw [h1, h2]

/-- Witness for C2 (amended): dollar-free values, the output one carrying
    an `[[output]]` token that is not rescanned. -/
theorem expandTemplate_two_pass_witness :
    containsDollar "make" = false
    ∧ containsDollar "ok [[output]] done" = false
    ∧ (expandTemplate "[[output]]" "make" "ok [[output]] done" = "ok [[output]] done"
       ∧ expandTemplate "[[command]]" "make" "ok [[output]] done"
           = replaceAllStr "make" "[[output]]" "ok [[output]] done") :=
  ⟨by decide, by decide,
   expandTemplate_two_pass "make" "ok [[output]] done" (by decide) (by decide)⟩

/-- **C7.**  Order independence of the two replacement passes, for every
    template, command text and output text that do not contain the
    literal placeholder syntax: replacing all `[[output]]` occurrences
    and then all `[[command]]` occurrences yields the same string as the
    code's `[[command]]`-then-`[[output]]` order. -/
theorem expandTemplate_order_independent (t c o : String)
    (ht1 : containsTok t "[[command]]" = false)
    (ht2 : containsTok t "[[output]]" = false)
    (hc1 : containsTok c "[[command]]" = false)
    (hc2 : containsTok c "[[output]]" = false)
    (ho1 : containsTok o "[[command]]" = false)
    (ho2 : containsTok o "[[output]]" = false) :
    replaceAllStr (replaceAllStr t "[[output]]" o) "[[command]]" c
      = expandTemplate t c o := by
  rw [replaceAllStr_of_not_contains t "[[output]]" o ht2,
      replaceAllStr_of_not_contains t "[[command]]" c ht1]
  unfold expandTemplate
  rw [replaceAllStr_of_not_contains t "[[command]]" c ht1,
      replaceAllStr_of_not_contains t "[[output]]" o ht2]

/-- Witness for C7 at concrete placeholder-free inputs. -/
theorem expandTemplate_order_independent_witness :
    containsTok "make build" "[[command]]" = false
    ∧ containsTok "make build" "[[output]]" = false
    ∧ containsTok "make" "[[command]]" = false
    ∧ containsTok "make" "[[output]]" = false
    ∧ containsTok "ok" "[[command]]" = false
    ∧ containsTok "ok" "[[output]]" = false
    ∧ replaceAllStr (replaceAllStr "make build" "[[output]]" "ok") "[[command]]" "make"
        = expandTemplate "make build" "make" "ok" :=
  ⟨by decide, by decide, by decide, by decide, by decide, by decide,
   expandTemplate_order_independent "make build" "make" "ok"
     (by decide) (by decide) (by decide) (by decide) (by decide) (by decide)⟩

/-- **C9.**  With zero arguments `main` prints the usage text and exits
    with code 1 without spawning any child process: no main command, no
    sound player, no post-command. -/
theorem main_no_args_usage_exit1 (w : World) :
    main [] w
      = { branch := MainBranch.usage, spawned := [], exitCode := some 1 } := rfl

/-- **C4.**  In the run branch, the process always terminates, and with
    exactly the main command's exit code: the final code is determined by
    the main command's stream events and terminal event alone, so no
    outcome of the notification stage (sound lookup or playback, over
    which the `World` quantifies) and no outcome of the post-command
    (including a nonzero post-command exit) can change it. -/
theorem main_exits_with_main_command_code (args : List String) (w : World)
    (hc1 : "--configure" ∉ args) (hc2 : "-c" ∉ args)
    (hh1 : "--help" ∉ args) (hh2 : "-h" ∉ args) (hne : args ≠ []) :
    (main args w).exitCode
      = some (executeCommand (String.intercalate " " args)
          w.mainStreams w.mainEvent).exitCode := by
  simp [main, hc1, hc2, hh1, hh2, hne, List.length_eq_zero]

/-- Witness for C4: a concrete two-word command in a concrete world. -/
theorem main_exits_with_main_command_code_witness :
    (main ["echo", "hi"] witnessWorld).exitCode
      = some (executeCommand (String.intercalate " " ["echo", "hi"])
          witnessWorld.mainStreams witnessWorld.mainEvent).exitCode :=
  main_exits_with_main_command_code ["echo", "hi"] witnessWorld
    (by decide) (by decide) (by decide) (by decide) (by decide)

/-- **C10.**  Flag recognition scans the whole argument list: any list
    containing `--configure` or `-c` anywhere enters configuration mode
    and executes no command; otherwise any list containing `--help` or
    `-h` anywhere (even among other words) prints help and executes no
    command; a list containing none of the four words and at least one
    word is joined with single spaces and run; and the run branch is
    reached only for such lists. -/
theorem main_flag_scan (args : List String) (w : World) :
    (("--configure" ∈ args ∨ "-c" ∈ args) →
        (main args w).branch = MainBranch.configure
        ∧ ∀ s, Spawned.mainCmd s ∉ (main args w).spawned)
    ∧ ("--configure" ∉ args → "-c" ∉ args →
        ("--help" ∈ args ∨ "-h" ∈ args) →
        (main args w).branch = MainBranch.help
        ∧ ∀ s, Spawned.mainCmd s ∉ (main args w).spawned)
    ∧ ("--configure" ∉ args → "-c" ∉ args → "--help" ∉ args → "-h" ∉ args →
        args ≠ [] →
        (main args w).branch = MainBranch.run
        ∧ Spawned.mainCmd (String.intercalate " " args) ∈ (main args w).spawned)
    ∧ ((main args w).branch = MainBranch.run →
        "--configure" ∉ args ∧ "-c" ∉ args ∧ "--help" ∉ args ∧ "-h" ∉ args) := by
  refine ⟨?_, ?_, ?_, ?_⟩
  · rintro (h | h) <;> simp [main, h]
  · intro h1 h2 h3
    rcases h3 with h | h <;> simp [main, h1, h2, h]
  · intro h1 h2 h3 h4 h5
    simp [main, h1, h2, h3, h4, h5, List.length_eq_zero]
  · intro hrun
    by_cases h1 : "--configure" ∈ args
    · simp [main, h1] at hrun
    · by_cases h2 : "-c" ∈ args
      · simp [main, h2] at hrun
      · by_cases h3 : "--help" ∈ args
        · simp [main, h1, h2, h3] at hrun
        · by_cases h4 : "-h" ∈ args
          · simp [main, h1, h2, h4] at hrun
          · exact ⟨h1, h2, h3, h4⟩

/-- Witness for C10: `cmdn echo -h` prints help (the flag is found even
    after another word) and spawns no main command. -/
theorem main_flag_scan_witness :
    (main ["echo", "-h"] witnessWorld).branch = MainBranch.help :=
  ((main_flag_scan ["echo", "-h"] witnessWorld).2.1
    (by decide) (by decide) (Or.inr (by decide))).1

/-- **C8, counterexample.**  The claim says the configuration is loaded
    once at process start and every stage observes that same value.  In
    the code each stage calls `loadConfig()` itself (lines 223 and 255),
    re-reading the file: in a world where the file disables sound when the
    notification stage reads it and is gone when the post-command stage
    reads it, the two stages observe different configurations. -/
theorem stage_configs_differ_cex :
    soundStageConfig diffFilesWorld ≠ postStageConfig diffFilesWorld := by
  decide

/-- **C8, amended.**  The configuration is not loaded once at process
    start: the notification stage and the post-command stage each load
    the config file at their own point of use.  Whenever the file content
    is the same at both loads, every stage observes the same
    configuration and the whole pipeline behaves exactly as if that value
    had been loaded once at startup and passed to every stage. -/
theorem main_single_load_refinement (args : List String) (w : World)
    (h : w.fileAtSound = w.fileAtPost) :
    main args w = mainConfigLoadedOnce (loadConfig w.fileAtSound) args w := by
  unfold main mainConfigLoadedOnce playNotificationSound runConfiguredCommand
    soundStageConfig postStageConfig
  rw [← h]

/-- Witness for C8 (amended): a world whose file content is unchanged
    between the two loads. -/
theorem main_single_load_refinement_witness :
    eqFilesWorld.fileAtSound = eqFilesWorld.fileAtPost
    ∧ main ["ls"] eqFilesWorld
        = mainConfigLoadedOnce (loadConfig eqFilesWorld.fileAtSound) ["ls"] eqFilesWorld :=
  ⟨rfl, main_single_load_refinement ["ls"] eqFilesWorld rfl⟩

end Cmdn
